import Mathlib

/-!
Verification development for the GPS tracker backend (`server.js` and its
revisions). The definitions below are a shallow embedding of the primary
(most complete) revision of the server:

* `submitHttp` embeds the `POST /api/location` route handler;
* `sendLocation` embeds the `send-location` WebSocket handler;
* `socketStep` / `runSocket` embed the `register-user` / `join-admin-room` /
  `disconnect` WebSocket handlers for a single socket;
* `broadcastPosition` embeds the emit section (`io.emit` plus
  `io.to('admin-room').emit`) against a set of connections;
* `latestPerSubject` embeds the `GET /api/admin/users` aggregation pipeline;
* `historyQuery` embeds the `GET /api/locations/:userId` range read;
* `adminUsersEndpoint` / `historyEndpoint` embed those routes' guard and
  catch wrappers.

Store interaction is made explicit: `connected` models
`mongoose.connection.readyState === 1`, `saveOk` models whether
`location.save()` resolves, the current wall clock is a `Nat` parameter, and
JS numbers carried in payloads are modelled as `Int`.
-/

namespace GPS

/-- A persisted `Location` document: `userId`, `latitude`, `longitude`,
`accuracy` (the handlers fill 0 via `accuracy || 0`), and the `timestamp`
assigned at document creation (`default: Date.now`). -/
structure Report where
  userId : String
  latitude : Int
  longitude : Int
  accuracy : Int
  timestamp : Nat
deriving DecidableEq

/-- Audience of a Socket.IO emit: `io.emit` reaches every connection,
`io.to('admin-room').emit` only the admin room. -/
inductive Target where
  | all
  | adminRoom
deriving DecidableEq

/-- Payload of an emitted location event. Optional fields model JS object
fields that may be absent (`undefined`): the handlers forward the raw request
fields, so latitude, longitude and accuracy can all be absent in a payload
even when a stored document always carries them. -/
structure EventPayload where
  userId : String
  latitude : Option Int
  longitude : Option Int
  accuracy : Option Int
  timestamp : Nat
  type : Option String
deriving DecidableEq

/-- One emitted Socket.IO event: event name, audience, payload. -/
structure Emitted where
  name : String
  target : Target
  payload : EventPayload
deriving DecidableEq

/-- Raw request body / socket message for a position submission:
`{ userId, latitude, longitude, accuracy }`, each possibly absent. -/
structure RawInput where
  userId : Option String
  latitude : Option Int
  longitude : Option Int
  accuracy : Option Int
deriving DecidableEq

/-- JS truthiness of the `userId` field as used by `if (!userId)` and
`if (!loc.userId)`: absent and the empty string are falsy. -/
def jsTruthyStr : Option String → Bool
  | none => false
  | some s => s ≠ ""

/-- Outcome of the synchronous `POST /api/location` route: `invalidInput` is
the 400 `Datos incompletos` reply, `serverError` the 500 reply produced by the
catch block, `ok saved` the 200 reply whose `saved` field is `!!location`. -/
inductive SubmitResult where
  | invalidInput
  | serverError
  | ok (saved : Bool)
deriving DecidableEq

/-- The two events emitted by the location route: `io.emit('locationUpdate',
{userId, latitude, longitude, accuracy, timestamp})` followed by
`io.to('admin-room').emit('adminLocationUpdate', {..., type: 'user_update'})`. -/
def emitPairHttp (u : String) (lat lon : Int) (acc : Option Int) (ts : Nat) :
    List Emitted :=
  [⟨"locationUpdate", .all, ⟨u, some lat, some lon, acc, ts, none⟩⟩,
   ⟨"adminLocationUpdate", .adminRoom,
     ⟨u, some lat, some lon, acc, ts, some "user_update"⟩⟩]

/-- The `POST /api/location` handler of the primary revision.

Source behavior: reject with 400 when `!userId || latitude === undefined ||
longitude === undefined`; when `mongoose.connection.readyState === 1` build a
`Location` and `await location.save()` — a rejected save throws into the catch
block (500, nothing emitted); otherwise (or after a successful save) emit
`locationUpdate` to everyone and `adminLocationUpdate` to the admin room with
`timestamp: location?.timestamp || new Date()`, and reply
`{success: true, saved: !!location}`. Returns (reply, persisted document,
emitted events). -/
def submitHttp (inp : RawInput) (connected saveOk : Bool) (now : Nat) :
    SubmitResult × Option Report × List Emitted :=
  match inp.userId, inp.latitude, inp.longitude with
  | some u, some lat, some lon =>
    if u = "" then (.invalidInput, none, [])
    else if connected then
      if saveOk then
        let r : Report := ⟨u, lat, lon, inp.accuracy.getD 0, now⟩
        (.ok true, some r, emitPairHttp u lat lon inp.accuracy r.timestamp)
      else (.serverError, none, [])
    else (.ok false, none, emitPairHttp u lat lon inp.accuracy now)
  | _, _, _ => (.invalidInput, none, [])

/-- The `send-location` WebSocket handler of the primary revision.

Source behavior: `if (!loc || !loc.userId) return;` — only the subject field
is checked. Then emit `adminLocationUpdate` (`{...loc, type: 'user_update',
timestamp: new Date()}`) to the admin room and `locationUpdate`
(`{...loc, timestamp: new Date()}`) to everyone, and finally, when the store
is connected, fire-and-forget `new Location({...}).save()` whose rejection is
swallowed by `.catch`; the mongoose schema marks latitude and longitude
required, so a save with either absent fails validation and persists nothing.
Returns (persisted document, emitted events); there is no reply. -/
def sendLocation (inp : RawInput) (connected saveOk : Bool) (now : Nat) :
    Option Report × List Emitted :=
  match inp.userId with
  | some u =>
    if u = "" then (none, [])
    else
      let evs : List Emitted :=
        [⟨"adminLocationUpdate", .adminRoom,
           ⟨u, inp.latitude, inp.longitude, inp.accuracy, now, some "user_update"⟩⟩,
         ⟨"locationUpdate", .all,
           ⟨u, inp.latitude, inp.longitude, inp.accuracy, now, none⟩⟩]
      let persisted : Option Report :=
        if connected then
          match inp.latitude, inp.longitude with
          | some lat, some lon =>
            if saveOk then some ⟨u, lat, lon, inp.accuracy.getD 0, now⟩ else none
          | _, _ => none
        else none
      (persisted, evs)
  | none => (none, [])

/-- One live Socket.IO connection as the broadcast code sees it: its id and
whether it has joined `admin-room`. -/
structure Conn where
  cid : Nat
  admin : Bool
deriving DecidableEq

/-- `io.emit(...)`: deliver one message to every connected socket. -/
def ioEmitAll (conns : List Conn) (m : Emitted) : List (Nat × Emitted) :=
  conns.map fun x => (x.cid, m)

/-- `io.to('admin-room').emit(...)`: deliver one message to every socket that
has joined the admin room. -/
def ioEmitAdminRoom (conns : List Conn) (m : Emitted) : List (Nat × Emitted) :=
  (conns.filter fun x => x.admin).map fun x => (x.cid, m)

/-- The emit section of the location routes as a fan-out over the current
connection set: `io.emit('locationUpdate', payload)` followed by
`io.to('admin-room').emit('adminLocationUpdate', {...payload, type:
'user_update'})`. Returns the per-connection deliveries in order. -/
def broadcastPosition (conns : List Conn) (u : String)
    (lat lon acc : Option Int) (ts : Nat) : List (Nat × Emitted) :=
  ioEmitAll conns ⟨"locationUpdate", .all, ⟨u, lat, lon, acc, ts, none⟩⟩ ++
    ioEmitAdminRoom conns
      ⟨"adminLocationUpdate", .adminRoom, ⟨u, lat, lon, acc, ts, some "user_update"⟩⟩

/-- A presence event sent by the WebSocket handlers: emitted as an
`adminLocationUpdate` with `type` `user_connected` or `user_disconnected`,
always via `io.to('admin-room')`. -/
structure PresenceEvent where
  userId : String
  kind : String
  target : Target
deriving DecidableEq

/-- Per-socket mutable state: the `socket.userId` binding set by
`register-user`, and admin-room membership set by `join-admin-room`. -/
structure SocketState where
  boundUserId : Option String
  inAdminRoom : Bool
deriving DecidableEq

/-- Actions a single socket can perform in the handlers under study. -/
inductive SAction where
  | register (userId : Option String)
  | joinAdmin
  | disconnect
deriving DecidableEq

/-- One step of the WebSocket handlers of the primary revision:

* `register-user`: `if (!data || !data.userId) return;` else set
  `socket.userId` and emit a `user_connected` presence event to the admin
  room — with no check whether the socket was already bound;
* `join-admin-room`: `socket.join('admin-room')`, no event;
* `disconnect`: emit a `user_disconnected` presence event for
  `socket.userId` to the admin room only when a subject is bound. -/
def socketStep (st : SocketState) : SAction → SocketState × List PresenceEvent
  | .register u =>
    match u with
    | some s =>
      if s = "" then (st, [])
      else ({ st with boundUserId := some s },
            [⟨s, "user_connected", .adminRoom⟩])
    | none => (st, [])
  | .joinAdmin => ({ st with inAdminRoom := true }, [])
  | .disconnect =>
    match st.boundUserId with
    | some s => (st, [⟨s, "user_disconnected", .adminRoom⟩])
    | none => (st, [])

/-- Run a list of actions on one socket, collecting the presence events in
emission order. -/
def runSocket (st : SocketState) : List SAction → List PresenceEvent
  | [] => []
  | a :: rest =>
    let p := socketStep st a
    p.2 ++ runSocket p.1 rest

/-- State of a freshly connected socket: unbound, not in the admin room. -/
def initSocket : SocketState := ⟨none, false⟩

/-- Newest-first comparison on reports, the `$sort: {timestamp: -1}` /
`.sort({timestamp: -1})` order. -/
def tsGe (a b : Report) : Prop := b.timestamp ≤ a.timestamp

instance : DecidableRel tsGe :=
  fun a b => inferInstanceAs (Decidable (b.timestamp ≤ a.timestamp))

instance : IsTotal Report tsGe := ⟨fun a b => Nat.le_total b.timestamp a.timestamp⟩

instance : IsTrans Report tsGe := ⟨fun _ _ _ h1 h2 => Nat.le_trans h2 h1⟩

/-- Sort reports newest first. -/
def sortByTsDesc (l : List Report) : List Report := l.insertionSort tsGe

/-- One row of the `GET /api/admin/users` aggregation output, per the
`$project` stage: position fields of `lastLocation`, the `$min` / `$max`
timestamps and the group count. -/
structure UserView where
  userId : String
  latitude : Int
  longitude : Int
  accuracy : Int
  firstSeen : Nat
  lastSeen : Nat
  locationCount : Nat
deriving DecidableEq

/-- The final `$sort: {lastSeen: -1}` order on aggregation rows. -/
def viewGe (a b : UserView) : Prop := b.lastSeen ≤ a.lastSeen

instance : DecidableRel viewGe :=
  fun a b => inferInstanceAs (Decidable (b.lastSeen ≤ a.lastSeen))

instance : IsTotal UserView viewGe := ⟨fun a b => Nat.le_total b.lastSeen a.lastSeen⟩

instance : IsTrans UserView viewGe := ⟨fun _ _ _ h1 h2 => Nat.le_trans h2 h1⟩

/-- Sort aggregation rows by last-seen, newest first. -/
def sortViews (l : List UserView) : List UserView := l.insertionSort viewGe

/-- Minimum of `t` and the elements of a list (`$min` over a group). -/
def listMin (t : Nat) : List Nat → Nat
  | [] => t
  | x :: xs => min t (listMin x xs)

/-- Maximum of `t` and the elements of a list (`$max` over a group). -/
def listMax (t : Nat) : List Nat → Nat
  | [] => t
  | x :: xs => max t (listMax x xs)

/-- The distinct group keys of `$group: {_id: "$userId", ...}`, in first
appearance order. -/
def dedupFirst : List String → List String
  | [] => []
  | x :: xs => x :: (dedupFirst xs).filter fun y => y ≠ x

/-- The `$group` accumulators and the `$project` stage applied to one group
of documents (in stream order): `lastLocation` is `$first` (the head),
`firstSeen` / `lastSeen` are `$min` / `$max` of the group's timestamps,
`locationCount` is `$sum: 1`. `none` for an empty group. -/
def groupView (u : String) : List Report → Option UserView
  | [] => none
  | r :: g =>
    some ⟨u, r.latitude, r.longitude, r.accuracy,
      listMin r.timestamp (g.map fun p => p.timestamp),
      listMax r.timestamp (g.map fun p => p.timestamp),
      (r :: g).length⟩

/-- The aggregation row for key `u`: the group is the filtered (order
preserving) sub-stream of the sorted document stream. -/
def viewFor (sorted : List Report) (u : String) : Option UserView :=
  groupView u (sorted.filter fun r => r.userId = u)

/-- The `GET /api/admin/users` aggregation pipeline:
`$sort: {timestamp: -1}`, `$group` by `userId` with `$first`, `$sum`,
`$min`, `$max`, `$project`, then `$sort: {lastSeen: -1}`. -/
def latestPerSubject (l : List Report) : List UserView :=
  let sorted := sortByTsDesc l
  sortViews ((dedupFirst (sorted.map fun r => r.userId)).filterMap (viewFor sorted))

/-- `const limit = parseInt(req.query.limit) || 50;`. The argument is the
`parseInt` result (`none` models `NaN`). `NaN` and `0` are falsy, so they
fall back to 50; any other number — negative included — is kept. -/
def effectiveLimit (q : Option Int) : Int :=
  match q with
  | none => 50
  | some n => if n = 0 then 50 else n

/-- The `GET /api/locations/:userId` range read:
`Location.find({userId}).sort({timestamp: -1}).limit(limit)`. The store
applies a negative limit by magnitude (a single batch of at most `|limit|`
documents), hence `Int.natAbs`. -/
def historyQuery (l : List Report) (u : String) (q : Option Int) : List Report :=
  (sortByTsDesc (l.filter fun r => r.userId = u)).take (effectiveLimit q).natAbs

/-- The `GET /api/admin/users` route around the pipeline: reply `[]` when
`mongoose.connection.readyState !== 1`, and the catch block replies `[]` when
the aggregation rejects (`stored = none`). -/
def adminUsersEndpoint (connected : Bool) (stored : Option (List Report)) :
    List UserView :=
  if connected then
    match stored with
    | some reports => latestPerSubject reports
    | none => []
  else []

/-- The `GET /api/locations/:userId` route around the range read: reply `[]`
when the store is not connected, and the catch block replies `[]` when the
read rejects (`stored = none`). -/
def historyEndpoint (connected : Bool) (stored : Option (List Report))
    (u : String) (q : Option Int) : List Report :=
  if connected then
    match stored with
    | some reports => historyQuery reports u q
    | none => []
  else []

/-- Store contents of the spec's aggregation example: three reports for
subject A (latest at time 30) and one report for subject B at time 5. -/
def exampleA3B1 : List Report :=
  [⟨"A", 1, 1, 1, 10⟩, ⟨"A", 2, 2, 2, 20⟩, ⟨"A", 3, 3, 3, 30⟩, ⟨"B", 4, 4, 4, 5⟩]

/-- Five stored reports for subject A, for the history-query examples. -/
def exFive : List Report :=
  [⟨"A", 0, 0, 0, 1⟩, ⟨"A", 1, 1, 1, 2⟩, ⟨"A", 2, 2, 2, 3⟩,
   ⟨"A", 3, 3, 3, 4⟩, ⟨"A", 4, 4, 4, 5⟩]

end GPS

namespace GPS

/-- Helper: delivery count of a mapped connection list, by connection id. -/
theorem countP_cid_map (m : Emitted) (n : Nat) (l : List Conn) :
    ((l.map fun x => (x.cid, m)).countP fun d => d.1 = n) =
      l.countP fun x => x.cid = n := by
  induction l with
  | nil => rfl
  | cons x xs ih => simp [List.countP_cons, ih]

/-- Helper: with distinct connection ids, exactly one connection matches a
member's id. -/
theorem countP_cid_one (l : List Conn) (c : Conn)
    (hnd : (l.map fun x => x.cid).Nodup) (hc : c ∈ l) :
    (l.countP fun x => x.cid = c.cid) = 1 := by
  induction l with
  | nil => cases hc
  | cons x xs ih =>
    rw [List.map_cons, List.nodup_cons] at hnd
    rcases List.mem_cons.mp hc with rfl | hxs
    · have hz : (xs.countP fun y => y.cid = c.cid) = 0 := by
        refine List.countP_eq_zero.mpr fun y hy hp => ?_
        have hcid : y.cid = c.cid := of_decide_eq_true hp
        exact hnd.1 (hcid ▸ List.mem_map.mpr ⟨y, hy, rfl⟩)
      rw [List.countP_cons, hz]
      simp
    · have hne : x.cid ≠ c.cid := fun hcid =>
        hnd.1 (hcid ▸ List.mem_map.mpr ⟨c, hxs, rfl⟩)
      rw [List.countP_cons, ih hnd.2 hxs]
      simp [hne]

/-- Helper: with distinct connection ids, the admin-filtered count for a
member's id is 1 precisely when that member is in the admin room. -/
theorem countP_cid_admin (l : List Conn) (c : Conn)
    (hnd : (l.map fun x => x.cid).Nodup) (hc : c ∈ l) :
    (l.countP fun x => decide (x.cid = c.cid) && x.admin) =
      if c.admin then 1 else 0 := by
  induction l with
  | nil => cases hc
  | cons x xs ih =>
    rw [List.map_cons, List.nodup_cons] at hnd
    rcases List.mem_cons.mp hc with rfl | hxs
    · have hz : (xs.countP fun y => decide (y.cid = c.cid) && y.admin) = 0 := by
        refine List.countP_eq_zero.mpr fun y hy hp => ?_
        have hcid : y.cid = c.cid :=
          of_decide_eq_true ((Bool.and_eq_true _ _).mp hp).1
        exact hnd.1 (hcid ▸ List.mem_map.mpr ⟨y, hy, rfl⟩)
      rw [List.countP_cons, hz]
      by_cases hadm : c.admin <;> simp [hadm]
    · have hne : x.cid ≠ c.cid := fun hcid =>
        hnd.1 (hcid ▸ List.mem_map.mpr ⟨c, hxs, rfl⟩)
      rw [List.countP_cons, ih hnd.2 hxs]
      simp [hne]

/-- C1: On the synchronous channel a missing subject, latitude or longitude
yields `invalidInput` with no persistence and no events; on the asynchronous
channel a missing (or falsy) subject is silently dropped with no side effect,
but an input that carries a subject and misses a coordinate still emits both
distribution events (nothing is persisted, the store write fails schema
validation). -/
theorem ingress_missing_field_behavior (inp : RawInput) (c s : Bool) (now : Nat) :
    (jsTruthyStr inp.userId = false ∨ inp.latitude = none ∨ inp.longitude = none →
      submitHttp inp c s now = (.invalidInput, none, [])) ∧
    (jsTruthyStr inp.userId = false →
      sendLocation inp c s now = (none, [])) ∧
    (jsTruthyStr inp.userId = true → (inp.latitude = none ∨ inp.longitude = none) →
      (sendLocation inp c s now).1 = none ∧ ((sendLocation inp c s now).2).length = 2) := by
  obtain ⟨u, lat, lon, acc⟩ := inp
  cases u with
  | none => simp [submitHttp, sendLocation, jsTruthyStr]
  | some u =>
    by_cases hu : u = "" <;>
      cases lat <;> cases lon <;> cases c <;> cases s <;>
        simp_all [submitHttp, sendLocation, jsTruthyStr]

/-- Witness for C1 at concrete inputs: subject present, latitude absent on the
asynchronous channel persists nothing. -/
theorem ingress_missing_field_behavior_witness :
    (sendLocation ⟨some "u", none, some 7, none⟩ true true 3).1 = none :=
  (ingress_missing_field_behavior ⟨some "u", none, some 7, none⟩ true true 3).2.2
    (by decide) (Or.inl rfl) |>.1

/-- C1 counterexample: the claim says an input missing latitude produces no
distribution event on either channel, but the `send-location` handler emits
both events for `{userId: "u", longitude: 7}`. -/
theorem sendLocation_missing_latitude_emits :
    (sendLocation ⟨some "u", none, some 7, none⟩ true true 3).2 ≠ [] := by
  decide

/-- C2 counterexample: the two ingress channels do not apply the same
validation — on an input missing latitude the synchronous route emits nothing
(it replies 400) while the asynchronous handler emits two events. -/
theorem channels_not_identical :
    (submitHttp ⟨some "u", none, some 7, none⟩ true true 3).2.2 = [] ∧
    (sendLocation ⟨some "u", none, some 7, none⟩ true true 3).2 ≠
      (submitHttp ⟨some "u", none, some 7, none⟩ true true 3).2.2 := by
  decide

/-- C2 amended: on inputs carrying a truthy subject and both coordinates, and
when the store write does not throw, the two channels persist the same
document and emit the same two event payloads — the asynchronous channel
admin-room-first, the synchronous one general-broadcast-first — and the
synchronous channel additionally replies `ok` with `saved` reflecting store
availability. They differ on inputs missing a coordinate (see the
counterexample). -/
theorem channels_agree_on_valid_input (u : String) (lat lon : Int)
    (acc : Option Int) (c : Bool) (now : Nat) (hu : u ≠ "") :
    (submitHttp ⟨some u, some lat, some lon, acc⟩ c true now).2.1 =
      (sendLocation ⟨some u, some lat, some lon, acc⟩ c true now).1 ∧
    (submitHttp ⟨some u, some lat, some lon, acc⟩ c true now).2.2 =
      ((sendLocation ⟨some u, some lat, some lon, acc⟩ c true now).2).reverse ∧
    (submitHttp ⟨some u, some lat, some lon, acc⟩ c true now).1 = .ok c := by
  cases c <;> simp [submitHttp, sendLocation, emitPairHttp, hu]

/-- Witness for C2 at a concrete valid input. -/
theorem channels_agree_on_valid_input_witness :
    (submitHttp ⟨some "u", some 1, some 2, none⟩ true true 9).2.1 =
      (sendLocation ⟨some "u", some 1, some 2, none⟩ true true 9).1 :=
  (channels_agree_on_valid_input "u" 1 2 none true 9 (by decide)).1

/-- C3: on a valid submission with the store connected but the write
rejecting, the route falls into its catch block: it replies 500 and emits
neither distribution event, contradicting the in-code comment that the events
are emitted even when nothing was saved (and the claimed
`ok` / `saved: false` degraded outcome). When the store is merely
disconnected the claimed behavior does hold (`ok false` with both events,
stamped with the wall clock). -/
theorem submitHttp_write_error_drops_events :
    submitHttp ⟨some "u", some 1, some 2, none⟩ true false 5 =
      (.serverError, none, []) ∧
    submitHttp ⟨some "u", some 1, some 2, none⟩ false false 5 =
      (.ok false, none, emitPairHttp "u" 1 2 none 5) := by
  decide

/-- C5: a connection that registers subject `S` (truthy) and then disconnects
emits exactly one `user_connected` and then exactly one `user_disconnected`
presence event for `S`, both addressed to the admin room only; a connection
that disconnects without registering emits no presence event. -/
theorem presence_register_disconnect (S : String) (hS : S ≠ "") :
    runSocket initSocket [.register (some S), .disconnect] =
      [⟨S, "user_connected", .adminRoom⟩, ⟨S, "user_disconnected", .adminRoom⟩] ∧
    runSocket initSocket [.disconnect] = [] := by
  simp [runSocket, socketStep, initSocket, hS]

/-- Witness for C5 at a concrete subject. -/
theorem presence_register_disconnect_witness :
    runSocket initSocket [.register (some "S"), .disconnect] =
      [⟨"S", "user_connected", .adminRoom⟩, ⟨"S", "user_disconnected", .adminRoom⟩] :=
  (presence_register_disconnect "S" (by decide)).1

/-- C9: `register-user` with a truthy subject always emits exactly one
`user_connected` event to the admin room, whatever the socket's current
binding (so rebinding to a new subject emits an additional `user_connected`),
and the eventual disconnect emits one `user_disconnected` naming only the
most recently bound subject. -/
theorem register_rebind_presence (a b : String) (ha : a ≠ "") (hb : b ≠ "") :
    (∀ st : SocketState, ∀ u : String, u ≠ "" →
      (socketStep st (.register (some u))).2 = [⟨u, "user_connected", .adminRoom⟩]) ∧
    runSocket initSocket [.register (some a), .register (some b), .disconnect] =
      [⟨a, "user_connected", .adminRoom⟩, ⟨b, "user_connected", .adminRoom⟩,
       ⟨b, "user_disconnected", .adminRoom⟩] := by
  constructor
  · intro st u hu
    simp [socketStep, hu]
  · simp [runSocket, socketStep, initSocket, ha, hb]

/-- Witness for C9 at concrete subjects. -/
theorem register_rebind_presence_witness :
    runSocket initSocket [.register (some "a"), .register (some "b"), .disconnect] =
      [⟨"a", "user_connected", .adminRoom⟩, ⟨"b", "user_connected", .adminRoom⟩,
       ⟨"b", "user_disconnected", .adminRoom⟩] :=
  (register_rebind_presence "a" "b" (by decide) (by decide)).2

/-- C4: every `broadcastPosition` call delivers the plain payload to every
connected socket, and separately delivers the `user_update`-tagged payload to
every admin-room member; when connection ids are distinct, an admin-room
member receives exactly two deliveries and a non-member exactly one (no
deduplication between the two audiences). -/
theorem broadcastPosition_delivery (conns : List Conn) (u : String)
    (lat lon acc : Option Int) (ts : Nat) (c : Conn) (hc : c ∈ conns) :
    (c.cid, (⟨"locationUpdate", .all, ⟨u, lat, lon, acc, ts, none⟩⟩ : Emitted)) ∈
      broadcastPosition conns u lat lon acc ts ∧
    (c.admin = true →
      (c.cid, (⟨"adminLocationUpdate", .adminRoom,
          ⟨u, lat, lon, acc, ts, some "user_update"⟩⟩ : Emitted)) ∈
        broadcastPosition conns u lat lon acc ts) ∧
    ((conns.map fun x => x.cid).Nodup →
      ((broadcastPosition conns u lat lon acc ts).countP fun d => d.1 = c.cid) =
        if c.admin then 2 else 1) := by
  refine ⟨?_, ?_, ?_⟩
  · exact List.mem_append_left _ (List.mem_map.mpr ⟨c, hc, rfl⟩)
  · intro hadm
    exact List.mem_append_right _
      (List.mem_map.mpr ⟨c, List.mem_filter.mpr ⟨hc, by simp [hadm]⟩, rfl⟩)
  · intro hnd
    simp only [broadcastPosition, List.countP_append, ioEmitAll, ioEmitAdminRoom,
      countP_cid_map, List.countP_filter]
    rw [countP_cid_one conns c hnd hc, countP_cid_admin conns c hnd hc]
    by_cases hadm : c.admin <;> simp [hadm]

/-- Witness for C4: with two connections, the admin-room member receives the
payload twice and the plain observer once. -/
theorem broadcastPosition_delivery_witness :
    ((broadcastPosition [⟨1, true⟩, ⟨2, false⟩] "u" (some 1) (some 2) none 5).countP
      fun d => d.1 = 1) = 2 := by
  have h := (broadcastPosition_delivery [⟨1, true⟩, ⟨2, false⟩] "u" (some 1) (some 2)
    none 5 ⟨1, true⟩ (by decide)).2.2 (by decide)
  simpa using h

/-- C10: a valid synchronous submission that omits `accuracy` persists a
document whose accuracy is 0 (`accuracy || 0`), while both emitted events
carry the raw absent accuracy field, so the stored and the broadcast accuracy
of the same report differ. -/
theorem accuracy_stored_vs_broadcast (u : String) (lat lon : Int) (now : Nat)
    (hu : u ≠ "") :
    ∃ r : Report,
      (submitHttp ⟨some u, some lat, some lon, none⟩ true true now).2.1 = some r ∧
      r.accuracy = 0 ∧
      ((submitHttp ⟨some u, some lat, some lon, none⟩ true true now).2.2).map
          (fun e => e.payload.accuracy) = [none, none] ∧
      some r.accuracy ∉
        ((submitHttp ⟨some u, some lat, some lon, none⟩ true true now).2.2).map
          (fun e => e.payload.accuracy) := by
  refine ⟨⟨u, lat, lon, 0, now⟩, ?_⟩
  simp [submitHttp, emitPairHttp, hu, Option.getD]

/-- Helper: `listMin` is bounded by its seed. -/
theorem listMin_le_self (t : Nat) (ts : List Nat) : listMin t ts ≤ t := by
  cases ts with
  | nil => exact Nat.le_refl t
  | cons x xs => rw [listMin]; exact Nat.min_le_left _ _

/-- Helper: `listMin` is bounded by every list element. -/
theorem listMin_le_mem (t : Nat) (ts : List Nat) (x : Nat) (hx : x ∈ ts) :
    listMin t ts ≤ x := by
  induction ts generalizing t with
  | nil => cases hx
  | cons y ys ih =>
    rw [listMin]
    rcases List.mem_cons.mp hx with rfl | hys
    · exact Nat.le_trans (Nat.min_le_right _ _) (listMin_le_self x ys)
    · exact Nat.le_trans (Nat.min_le_right _ _) (ih y hys)

/-- Helper: `listMin` attains one of its inputs. -/
theorem listMin_mem (t : Nat) (ts : List Nat) : listMin t ts ∈ t :: ts := by
  induction ts generalizing t with
  | nil => exact List.mem_cons_self t []
  | cons y ys ih =>
    rw [listMin]
    rcases Nat.le_total t (listMin y ys) with h | h
    · rw [Nat.min_eq_left h]; exact List.mem_cons_self _ _
    · rw [Nat.min_eq_right h]; exact List.mem_cons_of_mem _ (ih y)

/-- Helper: `listMax` dominates its seed. -/
theorem le_listMax_self (t : Nat) (ts : List Nat) : t ≤ listMax t ts := by
  cases ts with
  | nil => exact Nat.le_refl t
  | cons x xs => rw [listMax]; exact Nat.le_max_left _ _

/-- Helper: `listMax` dominates every list element. -/
theorem le_listMax_mem (t : Nat) (ts : List Nat) (x : Nat) (hx : x ∈ ts) :
    x ≤ listMax t ts := by
  induction ts generalizing t with
  | nil => cases hx
  | cons y ys ih =>
    rw [listMax]
    rcases List.mem_cons.mp hx with rfl | hys
    · exact Nat.le_trans (le_listMax_self x ys) (Nat.le_max_right _ _)
    · exact Nat.le_trans (ih y hys) (Nat.le_max_right _ _)

/-- Helper: `listMax` attains one of its inputs. -/
theorem listMax_mem (t : Nat) (ts : List Nat) : listMax t ts ∈ t :: ts := by
  induction ts generalizing t with
  | nil => exact List.mem_cons_self t []
  | cons y ys ih =>
    rw [listMax]
    rcases Nat.le_total (listMax y ys) t with h | h
    · rw [Nat.max_eq_left h]; exact List.mem_cons_self _ _
    · rw [Nat.max_eq_right h]; exact List.mem_cons_of_mem _ (ih y)

/-- Helper: `listMax` collapses to its seed when the seed dominates. -/
theorem listMax_eq_self_of_ge (t : Nat) (ts : List Nat) (h : ∀ x ∈ ts, x ≤ t) :
    listMax t ts = t := by
  cases ts with
  | nil => rfl
  | cons y ys =>
    rw [listMax]
    exact Nat.max_eq_left (h _ (listMax_mem y ys))

/-- Helper: `dedupFirst` returns a duplicate-free list. -/
theorem dedupFirst_nodup (xs : List String) : (dedupFirst xs).Nodup := by
  induction xs with
  | nil => exact List.nodup_nil
  | cons x xs ih =>
    rw [dedupFirst]
    refine List.nodup_cons.mpr ⟨?_, ih.filter _⟩
    intro hx
    exact of_decide_eq_true (List.mem_filter.mp hx).2 rfl

/-- Helper: `dedupFirst` preserves membership. -/
theorem dedupFirst_mem (xs : List String) (a : String) :
    a ∈ dedupFirst xs ↔ a ∈ xs := by
  induction xs with
  | nil => simp [dedupFirst]
  | cons x xs ih =>
    rw [dedupFirst]
    by_cases hax : a = x
    · subst hax; simp
    · constructor
      · intro h
        rcases List.mem_cons.mp h with h1 | h2
        · exact absurd h1 hax
        · exact List.mem_cons_of_mem _ (ih.mp (List.mem_of_mem_filter h2))
      · intro h
        rcases List.mem_cons.mp h with h1 | h2
        · exact absurd h1 hax
        · exact List.mem_cons_of_mem _
            (List.mem_filter.mpr ⟨ih.mpr h2, by simp [hax]⟩)

/-- Helper: a key occurring in the stream yields an aggregation row. -/
theorem viewFor_isSome_of_mem (S : List Report) (u : String)
    (hu : u ∈ S.map fun r => r.userId) : ∃ v, viewFor S u = some v := by
  rw [viewFor]
  cases hfil : S.filter (fun r => r.userId = u) with
  | nil =>
    exfalso
    rcases List.mem_map.mp hu with ⟨r, hr, hru⟩
    have hmem : r ∈ S.filter (fun x => x.userId = u) :=
      List.mem_filter.mpr ⟨hr, by simp [hru]⟩
    rw [hfil] at hmem
    cases hmem
  | cons r g =>
    refine ⟨⟨u, r.latitude, r.longitude, r.accuracy,
      listMin r.timestamp (g.map fun p => p.timestamp),
      listMax r.timestamp (g.map fun p => p.timestamp), (r :: g).length⟩, ?_⟩
    rfl

/-- Helper: an aggregation row carries its group key. -/
theorem viewFor_userId (S : List Report) (u : String) (v : UserView)
    (hv : viewFor S u = some v) : v.userId = u := by
  rw [viewFor] at hv
  cases hfil : S.filter (fun r => r.userId = u) with
  | nil => rw [hfil] at hv; simp [groupView] at hv
  | cons r g =>
    rw [hfil] at hv
    simp only [groupView, Option.some.injEq] at hv
    rw [← hv]

/-- Helper: full characterisation of one aggregation row over a
newest-first-sorted stream: the position fields come from a member of the
group whose timestamp is `lastSeen`, `firstSeen` / `lastSeen` bound the
group's timestamps and are attained, and `locationCount` counts the group. -/
theorem viewFor_spec (S : List Report) (hs : List.Sorted tsGe S) (u : String)
    (v : UserView) (hv : viewFor S u = some v) :
    v.userId = u ∧
    (∃ r ∈ S, r.userId = u ∧ v.latitude = r.latitude ∧ v.longitude = r.longitude ∧
      v.accuracy = r.accuracy ∧ r.timestamp = v.lastSeen) ∧
    (∀ r ∈ S, r.userId = u → v.firstSeen ≤ r.timestamp ∧ r.timestamp ≤ v.lastSeen) ∧
    (∃ r ∈ S, r.userId = u ∧ r.timestamp = v.firstSeen) ∧
    v.locationCount = S.countP fun r => r.userId = u := by
  rw [viewFor] at hv
  cases hfil : S.filter (fun r => r.userId = u) with
  | nil => rw [hfil] at hv; simp [groupView] at hv
  | cons r g =>
    rw [hfil] at hv
    simp only [groupView, Option.some.injEq] at hv
    subst hv
    have hmemfil : ∀ x ∈ r :: g, x ∈ S ∧ x.userId = u := by
      intro x hx
      have hxf : x ∈ S.filter (fun p => p.userId = u) := hfil ▸ hx
      exact ⟨List.mem_of_mem_filter hxf, of_decide_eq_true (List.mem_filter.mp hxf).2⟩
    have hpair : ∀ x ∈ g, x.timestamp ≤ r.timestamp := by
      have hp : List.Pairwise tsGe (r :: g) := by
        have h0 : List.Pairwise tsGe (S.filter fun p => p.userId = u) :=
          List.Pairwise.filter _ hs
        rw [hfil] at h0
        exact h0
      exact (List.pairwise_cons.mp hp).1
    have hmax : listMax r.timestamp (g.map fun p => p.timestamp) = r.timestamp := by
      refine listMax_eq_self_of_ge _ _ ?_
      intro x hx
      rcases List.mem_map.mp hx with ⟨y, hy, rfl⟩
      exact hpair y hy
    refine ⟨rfl, ?_, ?_, ?_, ?_⟩
    · exact ⟨r, (hmemfil r (List.mem_cons_self r g)).1,
        (hmemfil r (List.mem_cons_self r g)).2, rfl, rfl, rfl, by
          show r.timestamp = listMax r.timestamp (g.map fun p => p.timestamp)
          rw [hmax]⟩
    · intro r' hr' hu'
      have hin : r' ∈ r :: g := by
        have : r' ∈ S.filter (fun p => p.userId = u) :=
          List.mem_filter.mpr ⟨hr', by simp [hu']⟩
        rw [hfil] at this
        exact this
      constructor
      · show listMin r.timestamp (g.map fun p => p.timestamp) ≤ r'.timestamp
        rcases List.mem_cons.mp hin with rfl | hg
        · exact listMin_le_self _ _
        · exact listMin_le_mem _ _ _ (List.mem_map.mpr ⟨r', hg, rfl⟩)
      · show r'.timestamp ≤ listMax r.timestamp (g.map fun p => p.timestamp)
        rcases List.mem_cons.mp hin with rfl | hg
        · exact le_listMax_self _ _
        · exact le_listMax_mem _ _ _ (List.mem_map.mpr ⟨r', hg, rfl⟩)
    · have hmem := listMin_mem r.timestamp (g.map fun p => p.timestamp)
      rw [show r.timestamp :: (g.map fun p => p.timestamp) =
          (r :: g).map fun p => p.timestamp from rfl] at hmem
      rcases List.mem_map.mp hmem with ⟨r', hr'g, hts⟩
      exact ⟨r', (hmemfil r' hr'g).1, (hmemfil r' hr'g).2, hts⟩
    · show (r :: g).length = S.countP fun p => p.userId = u
      rw [List.countP_eq_length_filter, hfil]

/-- Helper: the rows produced for a key list recover exactly those keys. -/
theorem filterMap_viewFor_map_userId (S : List Report) (K : List String)
    (hK : ∀ u ∈ K, ∃ v, viewFor S u = some v) :
    (K.filterMap (viewFor S)).map (fun v => v.userId) = K := by
  induction K with
  | nil => rfl
  | cons u K' ih =>
    obtain ⟨v, hv⟩ := hK u (List.mem_cons_self u K')
    rw [List.filterMap_cons_some hv, List.map_cons, viewFor_userId S u v hv,
      ih fun x hx => hK x (List.mem_cons_of_mem u hx)]

/-- C6: for every store contents, `latestPerSubject` has duplicate-free
subject keys covering exactly the stored subjects; each row's position fields
come from a report of that subject whose timestamp equals the row's
`lastSeen`; `firstSeen` / `lastSeen` are the minimum / maximum captured-at
timestamps of the subject's reports (both attained); `locationCount` counts
the subject's reports; the output is ordered by `lastSeen` descending; and on
the spec's example store (A with 3 reports, latest at 30; B with 1 report at
5) it returns A's row first with counts 3 and 1. -/
theorem latestPerSubject_correct (l : List Report) :
    ((latestPerSubject l).map fun v => v.userId).Nodup ∧
    (∀ u, (u ∈ (latestPerSubject l).map fun v => v.userId) ↔
      u ∈ l.map fun r => r.userId) ∧
    (∀ v ∈ latestPerSubject l,
      (∃ r ∈ l, r.userId = v.userId ∧ v.latitude = r.latitude ∧
        v.longitude = r.longitude ∧ v.accuracy = r.accuracy ∧
        r.timestamp = v.lastSeen) ∧
      (∀ r ∈ l, r.userId = v.userId →
        v.firstSeen ≤ r.timestamp ∧ r.timestamp ≤ v.lastSeen) ∧
      (∃ r ∈ l, r.userId = v.userId ∧ r.timestamp = v.firstSeen) ∧
      v.locationCount = l.countP fun r => r.userId = v.userId) ∧
    List.Sorted viewGe (latestPerSubject l) ∧
    latestPerSubject exampleA3B1 =
      [⟨"A", 3, 3, 3, 10, 30, 3⟩, ⟨"B", 4, 4, 4, 5, 5, 1⟩] := by
  have hSperm : List.Perm (sortByTsDesc l) l := List.perm_insertionSort tsGe l
  have hSsort : List.Sorted tsGe (sortByTsDesc l) := List.sorted_insertionSort tsGe l
  have hKmem : ∀ u ∈ dedupFirst ((sortByTsDesc l).map fun r => r.userId),
      ∃ v, viewFor (sortByTsDesc l) u = some v := fun u hu =>
    viewFor_isSome_of_mem _ _ ((dedupFirst_mem _ _).mp hu)
  have hmapK : ((dedupFirst ((sortByTsDesc l).map fun r => r.userId)).filterMap
        (viewFor (sortByTsDesc l))).map (fun v => v.userId) =
      dedupFirst ((sortByTsDesc l).map fun r => r.userId) :=
    filterMap_viewFor_map_userId _ _ hKmem
  have hout : List.Perm (latestPerSubject l)
      ((dedupFirst ((sortByTsDesc l).map fun r => r.userId)).filterMap
        (viewFor (sortByTsDesc l))) := List.perm_insertionSort viewGe _
  refine ⟨?_, ?_, ?_, List.sorted_insertionSort viewGe _, by decide⟩
  · have h1 := hout.map fun v => v.userId
    rw [hmapK] at h1
    exact h1.symm.nodup (dedupFirst_nodup _)
  · intro u
    have h1 : (u ∈ (latestPerSubject l).map fun v => v.userId) ↔
        u ∈ ((dedupFirst ((sortByTsDesc l).map fun r => r.userId)).filterMap
          (viewFor (sortByTsDesc l))).map fun v => v.userId :=
      (hout.map fun v => v.userId).mem_iff
    rw [hmapK] at h1
    rw [h1, dedupFirst_mem]
    exact (hSperm.map fun r => r.userId).mem_iff
  · intro v hv
    have hv' := hout.mem_iff.mp hv
    rcases List.mem_filterMap.mp hv' with ⟨u, _, hvu⟩
    obtain ⟨hvid, ⟨r, hrS, hru, h2, h3, h4, h5⟩, hbounds, ⟨r2, hr2S, hr2u, hr2ts⟩,
      hcount⟩ := viewFor_spec _ hSsort u v hvu
    subst hvid
    refine ⟨⟨r, hSperm.subset hrS, hru, h2, h3, h4, h5⟩, ?_,
      ⟨r2, hSperm.subset hr2S, hr2u, hr2ts⟩, ?_⟩
    · intro r' hr' hu'
      exact hbounds r' (hSperm.symm.subset hr') hu'
    · rw [hcount]
      exact hSperm.countP_eq _

/-- Witness for C6: on the example store the subject keys are duplicate-free
and subject A appears. -/
theorem latestPerSubject_correct_witness :
    ((latestPerSubject exampleA3B1).map fun v => v.userId).Nodup ∧
    ("A" ∈ (latestPerSubject exampleA3B1).map fun v => v.userId) :=
  ⟨(latestPerSubject_correct exampleA3B1).1,
   ((latestPerSubject_correct exampleA3B1).2.1 "A").mpr (by decide)⟩

/-- C7 counterexample: the claim says every non-positive limit falls back to
the default, but `parseInt(...) || 50` keeps a negative number: with five
stored reports, `limit=-2` returns 2 documents while the default returns
all 5. -/
theorem history_negative_limit_no_fallback :
    effectiveLimit (some (-2)) = -2 ∧
    (historyQuery exFive "A" (some (-2))).length = 2 ∧
    (historyQuery exFive "A" none).length = 5 ∧
    historyQuery exFive "A" (some (-2)) ≠ historyQuery exFive "A" none := by
  decide

/-- C7 amended: `historyQuery` returns only the subject's reports, newest
first, exactly `min |limit| (number of the subject's reports)` of them, and
every stored report of the subject left out is no newer than any returned
one; a non-numeric (`NaN`) or zero limit falls back to the default 50, while
a negative limit is kept (the store reads it by magnitude). -/
theorem history_query_correct (l : List Report) (u : String) (q : Option Int) :
    (∀ r ∈ historyQuery l u q, r.userId = u) ∧
    List.Sorted tsGe (historyQuery l u q) ∧
    (historyQuery l u q).length =
      min (effectiveLimit q).natAbs (l.countP fun r => r.userId = u) ∧
    (∀ r ∈ l, r.userId = u → r ∉ historyQuery l u q →
      ∀ x ∈ historyQuery l u q, r.timestamp ≤ x.timestamp) ∧
    effectiveLimit none = 50 ∧ effectiveLimit (some 0) = 50 := by
  refine ⟨?_, ?_, ?_, ?_, rfl, rfl⟩
  · intro r hr
    have hrS : r ∈ sortByTsDesc (l.filter fun p => p.userId = u) :=
      List.take_subset _ _ hr
    have hrf : r ∈ l.filter fun p => p.userId = u :=
      (List.perm_insertionSort tsGe _).subset hrS
    exact of_decide_eq_true (List.mem_filter.mp hrf).2
  · exact (List.sorted_insertionSort tsGe _).sublist (List.take_sublist _ _)
  · rw [historyQuery, List.length_take, sortByTsDesc,
      (List.perm_insertionSort tsGe (l.filter fun r => r.userId = u)).length_eq,
      List.countP_eq_length_filter]
  · intro r hr hu hnot x hx
    have hrL : r ∈ sortByTsDesc (l.filter fun p => p.userId = u) :=
      (List.perm_insertionSort tsGe _).symm.subset
        (List.mem_filter.mpr ⟨hr, by simp [hu]⟩)
    set L := sortByTsDesc (l.filter fun p => p.userId = u) with hL
    set n := (effectiveLimit q).natAbs with hn
    have hsplit : L = L.take n ++ L.drop n := (List.take_append_drop n L).symm
    have hrdrop : r ∈ L.drop n := by
      rcases List.mem_append.mp (hsplit ▸ hrL) with h | h
      · exact absurd h hnot
      · exact h
    have hcross : ∀ a ∈ L.take n, ∀ b ∈ L.drop n, tsGe a b := by
      have hsorted : List.Pairwise tsGe (L.take n ++ L.drop n) := by
        rw [← hsplit]
        exact List.sorted_insertionSort tsGe _
      exact (List.pairwise_append.mp hsorted).2.2
    exact hcross x hx r hrdrop

/-- Witness for C7: on five stored reports with limit 2 the query returns two
documents, and the excluded report at time 3 is older than the returned
report at time 5. -/
theorem history_query_correct_witness :
    (historyQuery exFive "A" (some 2)).length = 2 ∧
    (⟨"A", 2, 2, 2, 3⟩ : Report).timestamp ≤ (⟨"A", 4, 4, 4, 5⟩ : Report).timestamp := by
  constructor
  · have h := (history_query_correct exFive "A" (some 2)).2.2.1
    simpa using h
  · exact (history_query_correct exFive "A" (some 2)).2.2.2.1 ⟨"A", 2, 2, 2, 3⟩
      (by decide) (by decide) (by decide) ⟨"A", 4, 4, 4, 5⟩ (by decide)

/-- C8: both read queries degrade instead of failing — the aggregation on an
empty store yields the empty sequence, and both routes reply with the empty
sequence when the store is disconnected or the read rejects. -/
theorem queries_degrade_to_empty :
    latestPerSubject [] = [] ∧
    adminUsersEndpoint true (some []) = [] ∧
    (∀ (stored : Option (List Report)) (u : String) (q : Option Int),
      adminUsersEndpoint false stored = [] ∧
      historyEndpoint false stored u q = []) ∧
    (∀ (u : String) (q : Option Int),
      adminUsersEndpoint true none = [] ∧ historyEndpoint true none u q = []) := by
  exact ⟨rfl, rfl, fun stored u q => ⟨rfl, rfl⟩, fun u q => ⟨rfl, rfl⟩⟩

/-- Witness for C10 at a concrete input. -/
theorem accuracy_stored_vs_broadcast_witness :
    ∃ r : Report,
      (submitHttp ⟨some "u", some 1, some 2, none⟩ true true 5).2.1 = some r ∧
      r.accuracy = 0 ∧
      ((submitHttp ⟨some "u", some 1, some 2, none⟩ true true 5).2.2).map
          (fun e => e.payload.accuracy) = [none, none] ∧
      some r.accuracy ∉
        ((submitHttp ⟨some "u", some 1, some 2, none⟩ true true 5).2.2).map
          (fun e => e.payload.accuracy) :=
  accuracy_stored_vs_broadcast "u" 1 2 5 (by decide)

end GPS
